import Mathlib

/-!
Verification of the Ask-Ed content synchronization engine.

Shallow embedding conventions:
* ISO-8601 date strings compared through `new Date(...)` are modelled by their
  epoch-millisecond values as `Nat`; the comparison order is preserved.
* JavaScript string falsiness (`""`) on timestamp fields is modelled by the
  value `0` on the corresponding `Nat` field.
* Fallible calls return `Except String`; external services (the Ed API, the
  vector store) are parameters of the functions that call them.
-/

namespace AskEd

/-- The three document families stored in the vector index. -/
inductive DocType where
  | thread
  | answer
  | comment
deriving DecidableEq, Repr

def DocType.str : DocType → String
  | .thread => "thread"
  | .answer => "answer"
  | .comment => "comment"

/-- One node of the recursive comment tree (`Comment` in `types`), with the
nested replies in `comments`.  Timestamps are epoch milliseconds. -/
structure CommentData where
  id : Nat
  user_id : Nat
  thread_id : Nat
  parent_id : Option Nat
  content : String
  document : String
  number : Nat
  created_at : Nat
  updated_at : Nat
  is_anonymous : Bool
deriving DecidableEq, Repr

inductive CommentNode where
  | node (data : CommentData) (comments : List CommentNode)

/-- Type `ThreadDetails` from `types`: a thread together with its discussion tree. -/
structure ThreadDetails where
  id : Nat
  user_id : Nat
  course_id : Nat
  title : String
  content : String
  document : String
  category : String
  ttype : String
  number : Nat
  created_at : Nat
  updated_at : Nat
  is_anonymous : Bool
  reply_count : Nat
  accepted_id : Option Nat
  answers : List CommentNode
  comments : List CommentNode

/-- JavaScript `String.prototype.trim`, modelled on the character list
(Lean's built-in `String.trim` is not kernel-reducible). -/
def trimChars (l : List Char) : List Char :=
  ((l.dropWhile Char.isWhitespace).reverse.dropWhile Char.isWhitespace).reverse

def jsTrim (s : String) : String := (trimChars s.toList).asString

/-- JavaScript `s.substring(0, n)`. -/
def jsTake (s : String) (n : Nat) : String := (s.toList.take n).asString

/-- JavaScript `haystack.includes(needle)` on the underlying characters. -/
def listIsInfix (needle hay : List Char) : Bool :=
  hay.tails.any fun t => needle.isPrefixOf t

/-- One step of the regex replace `content.replace(/<[^>]*>/g, ' ')`:
each maximal `<...>` span (up to the first `>`) becomes a single space;
a `<` with no later `>` is left alone (the regex does not match it). -/
def stripTags : List Char → List Char
  | [] => []
  | c :: rest =>
    if c = '<' then
      match h : rest.dropWhile (fun d => d ≠ '>') with
      | [] => c :: stripTags rest
      | _ :: after => ' ' :: stripTags after
    else c :: stripTags rest
termination_by l => l.length
decreasing_by
  · simp only [List.length_cons]
    omega
  · simp only [List.length_cons]
    have h1 : (rest.dropWhile (fun d => d ≠ '>')).length ≤ rest.length :=
      (List.dropWhile_sublist _).length_le
    rw [h] at h1
    simp only [List.length_cons] at h1
    omega
  · simp only [List.length_cons]
    omega

/-- The regex replace `.replace(/\s+/g, ' ')`: every maximal whitespace run
becomes a single space. -/
def collapseWs : List Char → List Char
  | [] => []
  | c :: rest =>
    if c.isWhitespace then
      ' ' :: collapseWs (rest.dropWhile Char.isWhitespace)
    else c :: collapseWs rest
termination_by l => l.length
decreasing_by
  · simp only [List.length_cons]
    have h1 : (rest.dropWhile Char.isWhitespace).length ≤ rest.length :=
      (List.dropWhile_sublist _).length_le
    omega
  · simp only [List.length_cons]
    omega

/-- Function `VectorClient.cleanText`: prefer the already-plain `document` field;
otherwise strip HTML tags from `content` and collapse whitespace. -/
def cleanText (content document : String) : String :=
  if jsTrim document ≠ "" then jsTrim document
  else jsTrim ((collapseWs (stripTags content.toList)).asString)

/-- Function `VectorClient.generateVectorId`: `thread_{threadId}` for threads,
`{type}_{threadId}_{commentId}` otherwise (an absent `commentId` prints as
the JavaScript string `undefined`). -/
def generateVectorId (ty : DocType) (threadId : Nat) (commentId : Option Nat) : String :=
  match ty with
  | .thread => "thread_" ++ toString threadId
  | _ =>
    ty.str ++ "_" ++ toString threadId ++ "_" ++
      (match commentId with
       | some c => toString c
       | none => "undefined")

/-- Type `VectorMetadata` from `types` (`title` only present on thread documents). -/
structure VectorMetadata where
  course_id : Nat
  thread_id : Nat
  comment_id : Option Nat
  mtype : DocType
  title : Option String
  content_preview : String
  created_at : Nat
  updated_at : Nat
  user_id : Nat
  is_anonymous : Bool
deriving DecidableEq, Repr

structure VectorDocument where
  id : String
  content : String
  metadata : VectorMetadata
deriving DecidableEq, Repr

/-- The document built for one comment-tree node inside
`createThreadVectorDocuments` (`comment.updated_at || comment.created_at`
falls back to `created_at` when `updated_at` is falsy, modelled by `0`). -/
def mkCommentDoc (t : ThreadDetails) (p : DocType × CommentData) : VectorDocument :=
  let commentContent := cleanText p.2.content p.2.document
  { id := generateVectorId p.1 t.id (some p.2.id)
    content := commentContent
    metadata :=
      { course_id := t.course_id
        thread_id := t.id
        comment_id := some p.2.id
        mtype := p.1
        title := none
        content_preview := jsTake commentContent 200
        created_at := p.2.created_at
        updated_at := if p.2.updated_at = 0 then p.2.created_at else p.2.updated_at
        user_id := p.2.user_id
        is_anonymous := p.2.is_anonymous } }

/-- The document built for the thread body inside `createThreadVectorDocuments`. -/
def threadDoc (t : ThreadDetails) : VectorDocument :=
  let threadContent := cleanText t.content t.document
  { id := generateVectorId .thread t.id none
    content := threadContent
    metadata :=
      { course_id := t.course_id
        thread_id := t.id
        comment_id := none
        mtype := .thread
        title := some t.title
        content_preview := jsTake threadContent 200
        created_at := t.created_at
        updated_at := t.updated_at
        user_id := t.user_id
        is_anonymous := t.is_anonymous } }

/-- The inner `processComments` of `createThreadVectorDocuments`: for each
comment emit a document when the cleaned text exceeds 10 characters, then
recurse into `.children` with type `comment`. -/
def processComments (t : ThreadDetails) : DocType → List CommentNode → List VectorDocument
  | _, [] => []
  | ty, .node d cs :: rest =>
    (if 10 < (cleanText d.content d.document).length then [mkCommentDoc t (ty, d)] else [])
      ++ processComments t .comment cs ++ processComments t ty rest

/-- Function `VectorClient.createThreadVectorDocuments`: the thread-body document (when
its cleaned text exceeds 10 characters) followed by the documents of the
answer trees (typed `answer` at the root) and the comment trees. -/
def createThreadVectorDocuments (t : ThreadDetails) : List VectorDocument :=
  (if 10 < (cleanText t.content t.document).length then [threadDoc t] else [])
    ++ processComments t .answer t.answers ++ processComments t .comment t.comments

/-! ## API client: thread pages and pagination -/

/-- A thread as it appears in a thread-list page (`Thread` in `types`);
only the fields the sync logic reads are carried, `updated_at` in epoch ms. -/
structure ThreadSummary where
  id : Nat
  updated_at : Nat
deriving DecidableEq, Repr

structure ThreadUser where
  id : Nat
  name : String
  course_role : String
deriving DecidableEq, Repr

/-- Type `ThreadsResponse` from `types`. -/
structure ThreadsResponse where
  threads : List ThreadSummary
  users : List ThreadUser
  sort_key : String
deriving DecidableEq, Repr

/-- Function `getCourseThreadsSince`: the server page is re-filtered client-side,
keeping only threads with `new Date(thread.updated_at) >= sinceDate`. -/
def getCourseThreadsSince (page : ThreadsResponse) (sinceDate : Nat) : ThreadsResponse :=
  { page with threads := page.threads.filter fun thread => sinceDate ≤ thread.updated_at }

/-- The user-collection loop shared by both `getAllCourseThreads` variants:
push each page user whose id is not already present. -/
def collectUsers (allUsers newUsers : List ThreadUser) : List ThreadUser :=
  newUsers.foldl
    (fun acc u => if acc.any (fun v => v.id = u.id) then acc else acc ++ [u]) allUsers

/-- The `while (true)` loop of the offset-based `getAllCourseThreads` in
`src/lib/ed-client/client.ts`, with the server abstracted as the page
returned for each offset (`limit` is the constant 100).  The loop itself is
unbounded, so it is embedded with explicit fuel: `none` means the loop has
not finished within `fuel` iterations.  Note this variant has no
accumulated-total safety cap. -/
def getAllCourseThreadsOffsetGo (server : Nat → ThreadsResponse) :
    Nat → Nat → List ThreadSummary → List ThreadUser → Option ThreadsResponse
  | 0, _, _, _ => none
  | fuel + 1, offset, allThreads, allUsers =>
    let response := server offset
    if response.threads.length = 0 then
      some { threads := allThreads, users := allUsers, sort_key := "" }
    else
      let allThreads := allThreads ++ response.threads
      let allUsers := collectUsers allUsers response.users
      let offset := offset + response.threads.length
      if response.threads.length < 100 then
        some { threads := allThreads, users := allUsers, sort_key := "" }
      else
        getAllCourseThreadsOffsetGo server fuel offset allThreads allUsers

def getAllCourseThreadsOffset (server : Nat → ThreadsResponse) (fuel : Nat) :
    Option ThreadsResponse :=
  getAllCourseThreadsOffsetGo server fuel 0 [] []

/-- The `while (true)` loop of the cursor/sort-key-based `getAllCourseThreads`
variant, with the server abstracted as the page returned for each sort key.
This variant carries `totalFetched` and breaks once it exceeds the 20,000
safety cap. -/
def getAllCourseThreadsCursorGo (server : Option String → ThreadsResponse) :
    Nat → Option String → Nat → List ThreadSummary → List ThreadUser → Option ThreadsResponse
  | 0, _, _, _, _ => none
  | fuel + 1, sortKey, totalFetched, allThreads, allUsers =>
    let response := server sortKey
    if response.threads.length = 0 then
      some { threads := allThreads, users := allUsers, sort_key := sortKey.getD "" }
    else
      let allThreads := allThreads ++ response.threads
      let totalFetched := totalFetched + response.threads.length
      let allUsers := collectUsers allUsers response.users
      let sortKey := some response.sort_key
      if response.threads.length < 100 then
        some { threads := allThreads, users := allUsers, sort_key := sortKey.getD "" }
      else if 20000 < totalFetched then
        some { threads := allThreads, users := allUsers, sort_key := sortKey.getD "" }
      else
        getAllCourseThreadsCursorGo server fuel sortKey totalFetched allThreads allUsers

def getAllCourseThreadsCursor (server : Option String → ThreadsResponse) (fuel : Nat) :
    Option ThreadsResponse :=
  getAllCourseThreadsCursorGo server fuel none 0 [] []

/-! ## Retry policy -/

/-- JavaScript `message.includes(sub)` on error strings. -/
def msgContains (msg sub : String) : Bool :=
  listIsInfix sub.toList msg.toList

def classifyRateLimit (msg : String) : Bool :=
  msgContains msg "429" || msgContains msg "rate"

def classifyTimeout (msg : String) : Bool :=
  msgContains msg "timeout" || msgContains msg "ETIMEDOUT"

/-- The wait computed after a failed attempt in `withRetry`: exponential
base-100ms backoff, a 2000ms floor for rate-limit-classified errors, and an
immediate (0ms) retry for timeout-classified errors on the first attempt
(this last override is applied after the rate-limit floor). -/
def retryWaitTime (msg : String) (attempt : Nat) : Nat :=
  let waitBase := 100 * 2 ^ (attempt - 1)
  let waitRate := if classifyRateLimit msg then max waitBase 2000 else waitBase
  if classifyTimeout msg && attempt == 1 then 0 else waitRate

/-- The attempt loop of `withRetry`, with the operation abstracted as the
outcome of each attempt number.  Returns the final outcome together with the
list of waits performed.  The guard `maxRetries ≤ attempt` coincides with the
source's `attempt === maxRetries` on every reachable state (the loop starts
at attempt 1 and only increments while below `maxRetries`). -/
def withRetryGo (op : Nat → Except String α) (maxRetries : Nat) (attempt : Nat) :
    Except String α × List Nat :=
  match op attempt with
  | Except.ok v => (Except.ok v, [])
  | Except.error e =>
    if maxRetries ≤ attempt then (Except.error e, [])
    else
      let w := retryWaitTime e attempt
      let rest := withRetryGo op maxRetries (attempt + 1)
      (rest.1, w :: rest.2)
termination_by maxRetries - attempt
decreasing_by omega

/-- Function `withRetry(operation, maxRetries = 5)`: the loop from attempt 1; with
`maxRetries = 0` the loop body never runs and the null `lastError` is thrown
(`Except.error none`). -/
def withRetry (op : Nat → Except String α) (maxRetries : Nat := 5) :
    Except (Option String) α × List Nat :=
  if maxRetries = 0 then (Except.error none, [])
  else
    match withRetryGo op maxRetries 1 with
    | (Except.ok v, ws) => (Except.ok v, ws)
    | (Except.error e, ws) => (Except.error (some e), ws)

/-! ## Vector index client: batch upsert, delta sync, delete -/

/-- Type `VectorSyncResult` from `types`. -/
structure VectorSyncResult where
  upserted : Nat
  deleted : Nat
  errors : List String
deriving DecidableEq, Repr

/-- The per-thread collection loop of `upsertThreadsBatch`: run the extractor
over every thread; a thread whose extraction throws contributes an error
string instead of aborting the loop.  The extractor is a parameter so the
throwing case is representable; the repository instantiates it with
`createThreadVectorDocuments` (which never throws). -/
def collectDocs (extract : ThreadDetails → Except String (List VectorDocument)) :
    List ThreadDetails → List VectorDocument × List String
  | [] => ([], [])
  | t :: rest =>
    let tailResult := collectDocs extract rest
    match extract t with
    | Except.ok ds => (ds ++ tailResult.1, tailResult.2)
    | Except.error m =>
      (tailResult.1, ("Failed to process thread " ++ toString t.id ++ ": " ++ m) :: tailResult.2)

/-- The chunking of `upsertThreadsBatch` (`BATCH_SIZE = 100`):
`allDocuments.slice(i, i + 100)` for `i = 0, 100, 200, ...`. -/
def chunksOf100 : List α → List (List α)
  | [] => []
  | x :: xs => (x :: xs).take 100 :: chunksOf100 ((x :: xs).drop 100)
termination_by l => l.length
decreasing_by
  simp only [List.length_drop, List.length_cons]
  omega

/-- The chunk-upsert loop of `upsertThreadsBatch`: `chunkFail k` is the error
thrown by the store for chunk number `k` (`none` = the write succeeds).  A
failed chunk appends its error and the loop proceeds with the next chunk. -/
def upsertChunks (chunkFail : Nat → Option String) : Nat → List (List VectorDocument) → Nat × List String
  | _, [] => (0, [])
  | k, c :: rest =>
    let tailResult := upsertChunks chunkFail (k + 1) rest
    match chunkFail k with
    | none => (c.length + tailResult.1, tailResult.2)
    | some m =>
      (tailResult.1, ("Batch upsert failed for chunk " ++ toString k ++ ": " ++ m) :: tailResult.2)

/-- Function `VectorClient.upsertThreadsBatch`: collect documents from every thread,
then upsert them in chunks of 100; chunk failures are accumulated as errors
after the extraction errors. -/
def upsertThreadsBatch (threads : List ThreadDetails)
    (extract : ThreadDetails → Except String (List VectorDocument))
    (chunkFail : Nat → Option String) : VectorSyncResult :=
  let collected := collectDocs extract threads
  if collected.1.length = 0 then
    { upserted := 0, deleted := 0, errors := collected.2 }
  else
    let chunkResult := upsertChunks chunkFail 0 (chunksOf100 collected.1)
    { upserted := chunkResult.1, deleted := 0, errors := collected.2 ++ chunkResult.2 }

/-- The filter applied by `deltaSyncCourse` before delegating:
`new Date(thread.updated_at) >= sinceDate`. -/
def deltaRecentThreads (threads : List ThreadDetails) (sinceDate : Nat) : List ThreadDetails :=
  threads.filter fun thread => sinceDate ≤ thread.updated_at

/-- Function `VectorClient.deltaSyncCourse`: filter to recently-updated threads, then
delegate to `upsertThreadsBatch`. -/
def deltaSyncCourse (threads : List ThreadDetails) (sinceDate : Nat)
    (extract : ThreadDetails → Except String (List VectorDocument))
    (chunkFail : Nat → Option String) : VectorSyncResult :=
  upsertThreadsBatch (deltaRecentThreads threads sinceDate) extract chunkFail

/-- JavaScript `id.startsWith(p)`, on the underlying characters. -/
def idStartsWith (id p : String) : Bool :=
  p.toList.isPrefixOf id.toList

/-- Modelled from the spec: the external vector store's delete-by-id-prefix
within one namespace removes every vector whose id starts with the given
string and reports how many it removed.  The store is a list of vector ids
(one course namespace). -/
def storeDeleteByIdStart (store : List String) (p : String) : List String × Nat :=
  (store.filter fun id => !(idStartsWith id p),
   (store.filter fun id => idStartsWith id p).length)

/-- Function `VectorClient.deleteThread`: three prefix deletes — `thread_{threadId}`,
`answer_{threadId}_`, `comment_{threadId}_` — with the summed count. -/
def deleteThread (store : List String) (threadId : Nat) : List String × Nat :=
  let r1 := storeDeleteByIdStart store ("thread_" ++ toString threadId)
  let r2 := storeDeleteByIdStart r1.1 ("answer_" ++ toString threadId ++ "_")
  let r3 := storeDeleteByIdStart r2.1 ("comment_" ++ toString threadId ++ "_")
  (r3.1, r1.2 + r2.2 + r3.2)

/-- Modelled from the spec: the external vector store's upsert keyed by
document id — an id already present is overwritten in place, a new id is
appended.  Only the ids are tracked. -/
def upsertId (store : List String) (id : String) : List String :=
  if id ∈ store then store else store ++ [id]

def upsertIds (store : List String) (ids : List String) : List String :=
  ids.foldl upsertId store

/-! ## API client: user courses -/

structure RawUser where
  id : Nat
  name : String
  email : String
deriving DecidableEq, Repr

/-- Type `Course` from `types` (`year` is a string in the API). -/
structure Course where
  id : Nat
  code : String
  name : String
  year : String
  session : String
  status : String
  created_at : String
deriving DecidableEq, Repr

/-- One entry of `data.courses` in the `/user` response; the `course` object
may be missing (`courseData?.course`). -/
structure RawEnrollment where
  course : Option Course
  last_active : String
deriving DecidableEq, Repr

/-- The `/user` response shape checked by `getUserCourses` (`user` and
`courses` may be absent). -/
structure EdApiResponse where
  user : Option RawUser
  courses : Option (List RawEnrollment)
deriving DecidableEq, Repr

structure Enrollment where
  course : Course
  last_active : String
deriving DecidableEq, Repr

structure ParsedUserData where
  user : RawUser
  courses : List Enrollment
deriving DecidableEq, Repr

/-- Function `EdClient.getUserCourses`: validate the response shape (JavaScript falsy
checks on `user.id`/`name`/`email` are `0`/`""`), then keep exactly the
enrollments that carry a `course` whose `year` equals the current calendar
year (string comparison); `currentYear` is a parameter standing for
`new Date().getFullYear().toString()`. -/
def getUserCourses (data : EdApiResponse) (currentYear : String) :
    Except String ParsedUserData :=
  match data.user, data.courses with
  | none, _ => Except.error "Invalid API response: missing user or courses data"
  | some _, none => Except.error "Invalid API response: missing user or courses data"
  | some u, some cs =>
    if u.id = 0 ∨ u.name = "" ∨ u.email = "" then
      Except.error "Invalid API response: incomplete user data"
    else
      Except.ok
        { user := u
          courses := cs.filterMap fun cd =>
            match cd.course with
            | some c =>
              if c.year = currentYear then
                some { course := c, last_active := cd.last_active }
              else none
            | none => none }

/-- Function `syncAllActiveCourses`: the fan-out set is the parsed courses further
filtered to `status === 'active'`. -/
def activeCourses (parsed : ParsedUserData) : List Enrollment :=
  parsed.courses.filter fun c => c.course.status = "active"

/-- Function `performHealthCheck`: `coursesCount` is `userData.courses.length`. -/
def healthCoursesCount (parsed : ParsedUserData) : Nat :=
  parsed.courses.length

/-! ## Sync orchestrator (convex/sync.ts) -/

inductive SyncStatus where
  | idle
  | syncing
  | completed
  | failed
deriving DecidableEq, Repr

inductive SyncType where
  | full
  | delta
deriving DecidableEq, Repr

/-- One `courseSyncStates` row. -/
structure SyncStateRec where
  courseId : Nat
  courseName : String
  courseCode : String
  status : SyncStatus
  lastSyncAt : Option Nat
  lastSuccessfulSyncAt : Option Nat
  nextScheduledSync : Option Nat
  totalThreads : Option Nat
  syncedThreads : Option Nat
  errorMessage : Option String
  syncType : SyncType
  workflowId : Option String
deriving DecidableEq, Repr

/-- The argument record of the `updateSyncState` mutation; `none` models an
argument left `undefined`. -/
structure UpdateArgs where
  courseId : Nat
  courseName : Option String
  courseCode : Option String
  status : SyncStatus
  lastSyncAt : Option Nat
  lastSuccessfulSyncAt : Option Nat
  nextScheduledSync : Option Nat
  totalThreads : Option Nat
  syncedThreads : Option Nat
  errorMessage : Option String
  syncType : SyncType
  workflowId : Option String
deriving DecidableEq, Repr

/-- The `updateSyncState` mutation over the single course's row (`db` is the
existing row, if any).  Patching a field with an `undefined` value clears it
(Convex `patch` semantics), except `lastSyncAt` which the source explicitly
preserves with `updates.lastSyncAt ?? existing.lastSyncAt`.  The required
`courseName`/`courseCode` fields fall back to the existing values (every
caller in the repository supplies them on the patch path). -/
def updateSyncState (db : Option SyncStateRec) (args : UpdateArgs) : SyncStateRec :=
  match db with
  | some existing =>
    -- Only update lastSyncAt if not in error state, or if explicitly provided
    let uLastSyncAt :=
      if args.status = SyncStatus.failed ∧ args.lastSyncAt = none then none
      else args.lastSyncAt
    -- Clear error message on successful sync
    let uErrorMessage :=
      if args.status = SyncStatus.completed ∨ args.status = SyncStatus.syncing then none
      else args.errorMessage
    -- Preserve existing lastSuccessfulSyncAt if not provided and not successful
    let uLastSuccess :=
      if args.lastSuccessfulSyncAt = none ∧ args.status ≠ SyncStatus.completed then
        existing.lastSuccessfulSyncAt
      else args.lastSuccessfulSyncAt
    { courseId := args.courseId
      courseName := args.courseName.getD existing.courseName
      courseCode := args.courseCode.getD existing.courseCode
      status := args.status
      lastSyncAt :=
        match uLastSyncAt with
        | some t => some t
        | none => existing.lastSyncAt
      lastSuccessfulSyncAt := uLastSuccess
      nextScheduledSync := args.nextScheduledSync
      totalThreads := args.totalThreads
      syncedThreads := args.syncedThreads
      errorMessage := uErrorMessage
      syncType := args.syncType
      workflowId := args.workflowId }
  | none =>
    { courseId := args.courseId
      courseName := args.courseName.getD ("Course " ++ toString args.courseId)
      courseCode := args.courseCode.getD ""
      status := args.status
      lastSyncAt := args.lastSyncAt
      lastSuccessfulSyncAt := args.lastSuccessfulSyncAt
      nextScheduledSync := args.nextScheduledSync
      totalThreads := args.totalThreads
      syncedThreads := args.syncedThreads
      errorMessage := args.errorMessage
      syncType := args.syncType
      workflowId := args.workflowId }

/-- The arguments of the `performCourseSync` action. -/
structure SyncArgs where
  courseId : Nat
  courseName : String
  courseCode : String
  syncType : SyncType
  forceFullSync : Option Bool
  edToken : String
deriving DecidableEq, Repr

/-- Which sync `performCourseSync` asks `syncCourseVectors` to run. -/
inductive SyncCall where
  | full
  | delta (sinceDate : Nat)
deriving DecidableEq, Repr

/-- The sync-strategy choice inside `performCourseSync`: full when requested
or forced; otherwise delta from `lastSuccessfulSyncAt` when one exists, and
a fall back to a full sync when none does. -/
def resolveSyncCall (syncType : SyncType) (forceFullSync : Option Bool)
    (lastSuccessfulSyncAt : Option Nat) : SyncCall :=
  if syncType = SyncType.full ∨ forceFullSync.getD false = true then SyncCall.full
  else
    match lastSuccessfulSyncAt with
    | some t => SyncCall.delta t
    | none => SyncCall.full

def MILLISECONDS_PER_DAY : Nat := 24 * 60 * 60 * 1000

/-- The delta-date default inside `syncCourseVectors`: the provided date, or
7 days before now (`setDate(getDate() - 7)`, modelled as 7 days of
milliseconds). -/
def resolveDeltaDate (sinceDate : Option Nat) (now : Nat) : Nat :=
  match sinceDate with
  | some d => d
  | none => now - 7 * MILLISECONDS_PER_DAY

/-- The environment of one `performCourseSync` run: whether
`createVectorConfig` finds its environment variables, whether the eager
`getUserCourses` token validation succeeds (with the failure message
otherwise), the outcome of the `syncCourseVectors` call it decides to make,
and the two `Date.now()` readings. -/
structure SyncEnv where
  vectorConfigOk : Bool
  tokenValid : Bool
  tokenErrorMsg : String
  runSync : SyncCall → Except String VectorSyncResult
  now : Nat
  now2 : Nat

/-- The `performCourseSync` action: the empty-token and vector-config guards
throw before any state write; inside the `try`, a failed token validation or
a failed sync lands in the `catch`, which writes `failed` and rethrows; the
success path writes `completed` with the upserted count and the joined
errors.  Returns the action outcome and the final row. -/
def performCourseSync (args : SyncArgs) (env : SyncEnv) (db : Option SyncStateRec) :
    Except String VectorSyncResult × Option SyncStateRec :=
  if args.edToken = "" then
    (Except.error "ED token is required", db)
  else if env.vectorConfigOk = false then
    (Except.error "Missing required environment variable", db)
  else if env.tokenValid = false then
    (Except.error ("Invalid ED token: " ++ env.tokenErrorMsg),
     some (updateSyncState db
       { courseId := args.courseId, courseName := some args.courseName
         courseCode := some args.courseCode, status := SyncStatus.failed
         lastSyncAt := none, lastSuccessfulSyncAt := none, nextScheduledSync := none
         totalThreads := none, syncedThreads := none
         errorMessage := some ("Invalid ED token: " ++ env.tokenErrorMsg)
         syncType := args.syncType, workflowId := none }))
  else
    -- Update state to syncing
    let newState := updateSyncState db
      { courseId := args.courseId, courseName := some args.courseName
        courseCode := some args.courseCode, status := SyncStatus.syncing
        lastSyncAt := some env.now, lastSuccessfulSyncAt := none, nextScheduledSync := none
        totalThreads := none, syncedThreads := none, errorMessage := none
        syncType := args.syncType, workflowId := none }
    let db1 := some newState
    -- Get current sync state to determine sync strategy: the row just written
    let call := resolveSyncCall args.syncType args.forceFullSync newState.lastSuccessfulSyncAt
    match env.runSync call with
    | Except.ok syncResult =>
      (Except.ok syncResult,
       some (updateSyncState db1
         { courseId := args.courseId, courseName := some args.courseName
           courseCode := some args.courseCode, status := SyncStatus.completed
           lastSyncAt := none, lastSuccessfulSyncAt := some env.now2
           nextScheduledSync := none, totalThreads := none
           syncedThreads := some syncResult.upserted
           errorMessage :=
             if syncResult.errors.length > 0 then
               some (String.intercalate "; " syncResult.errors)
             else none
           syncType := args.syncType, workflowId := none }))
    | Except.error e =>
      (Except.error e,
       some (updateSyncState db1
         { courseId := args.courseId, courseName := some args.courseName
           courseCode := some args.courseCode, status := SyncStatus.failed
           lastSyncAt := none, lastSuccessfulSyncAt := none, nextScheduledSync := none
           totalThreads := none, syncedThreads := none
           errorMessage := some e
           syncType := args.syncType, workflowId := none }))

/-! ## Spec-side definitions and concrete instances -/

/-- The spec's reading of the extractor walk: every node of the comment
tree, paired with its origin type (`answer` at the root of an answer tree,
`comment` everywhere below and in comment trees), in traversal order and
with no length filtering. -/
def commentNodes : DocType → List CommentNode → List (DocType × CommentData)
  | _, [] => []
  | ty, .node d cs :: rest =>
    (ty, d) :: (commentNodes .comment cs ++ commentNodes ty rest)

/-- The answer of the spec's `extractDocuments` scenario: 50 characters of
plain content. -/
def scenarioAnswer : CommentData :=
  { id := 2, user_id := 7, thread_id := 1, parent_id := none
    content := ""
    document := "This answer body contains fifty characters in all."
    number := 1, created_at := 1000, updated_at := 2000, is_anonymous := false }

/-- The thread of the spec's `extractDocuments` scenario: body text `"ok"`
(2 characters) and one answer with 50 characters of content. -/
def scenarioThread : ThreadDetails :=
  { id := 1, user_id := 3, course_id := 9, title := "t"
    content := "ok", document := ""
    category := "", ttype := "question", number := 1
    created_at := 500, updated_at := 600, is_anonymous := false
    reply_count := 1, accepted_id := none
    answers := [CommentNode.node scenarioAnswer []]
    comments := [] }

/-- A page of exactly 100 threads: what a server that always returns full
pages answers on every request. -/
def fullPage : ThreadsResponse :=
  { threads := (List.range 100).map fun i => { id := i, updated_at := 0 }
    users := [], sort_key := "k" }

def fullPageServer : Nat → ThreadsResponse := fun _ => fullPage

def fullPageCursorServer : Option String → ThreadsResponse := fun _ => fullPage

/-- The operation of the retry scenario: attempts 1 and 2 fail with a
generic error, attempt 3 succeeds. -/
def failTwiceOp : Nat → Except String Nat :=
  fun attempt => if attempt < 3 then Except.error "boom" else Except.ok 42

/-- A sync-state row currently in `syncing` (as written by
`startCourseSync` when it launches a workflow). -/
def stuckSyncingRec : SyncStateRec :=
  { courseId := 1, courseName := "Algo", courseCode := "A1"
    status := SyncStatus.syncing, lastSyncAt := some 50
    lastSuccessfulSyncAt := none, nextScheduledSync := none
    totalThreads := none, syncedThreads := none, errorMessage := none
    syncType := SyncType.full, workflowId := some "w1" }

def emptyTokenArgs : SyncArgs :=
  { courseId := 1, courseName := "Algo", courseCode := "A1"
    syncType := SyncType.full, forceFullSync := none, edToken := "" }

def okTokenArgs : SyncArgs :=
  { courseId := 1, courseName := "Algo", courseCode := "A1"
    syncType := SyncType.full, forceFullSync := none, edToken := "tok" }

/-- An environment where everything works but the sync reports one
accumulated error alongside 5 upserted documents. -/
def envOkWithErrors : SyncEnv :=
  { vectorConfigOk := true, tokenValid := true, tokenErrorMsg := ""
    runSync := fun _ => Except.ok { upserted := 5, deleted := 0, errors := ["boom"] }
    now := 100, now2 := 200 }

/-- An environment where the sync call itself throws. -/
def envSyncThrows : SyncEnv :=
  { vectorConfigOk := true, tokenValid := true, tokenErrorMsg := ""
    runSync := fun _ => Except.error "network down"
    now := 100, now2 := 200 }

/-- A `/user` response with one current-year active course, one
previous-year course, and one enrollment lacking a course object. -/
def sampleCourseA : Course :=
  { id := 11, code := "A", name := "Algo", year := "2025"
    session := "S1", status := "active", created_at := "" }

def sampleCourseB : Course :=
  { id := 12, code := "B", name := "Old", year := "2024"
    session := "S1", status := "active", created_at := "" }

def sampleApiResponse : EdApiResponse :=
  { user := some { id := 4, name := "u", email := "u@e" }
    courses := some
      [ { course := some sampleCourseA, last_active := "yesterday" }
      , { course := some sampleCourseB, last_active := "ages" }
      , { course := none, last_active := "never" } ] }

/-- What `getUserCourses` parses out of `sampleApiResponse` in 2025: only
the current-year enrollment survives. -/
def sampleParsed : ParsedUserData :=
  { user := { id := 4, name := "u", email := "u@e" }
    courses := [ { course := sampleCourseA, last_active := "yesterday" } ] }

/-! ## Text-cleaning helper lemmas -/

theorem stripTags_eq_self : ∀ l : List Char, '<' ∉ l → stripTags l = l
  | [], _ => by simp [stripTags]
  | c :: rest, h => by
    have hc : ¬ c = '<' := fun hcc => h (by simp [hcc])
    have hr : '<' ∉ rest := fun hm => h (List.mem_cons_of_mem _ hm)
    rw [stripTags]
    simp [hc, stripTags_eq_self rest hr]

theorem collapseWs_eq_self :
    ∀ l : List Char, (∀ c ∈ l, c.isWhitespace = false) → collapseWs l = l
  | [], _ => by simp [collapseWs]
  | c :: rest, h => by
    have hc : c.isWhitespace = false := h c (List.mem_cons_self c rest)
    have hr : ∀ c ∈ rest, c.isWhitespace = false := fun d hd => h d (List.mem_cons_of_mem _ hd)
    rw [collapseWs]
    simp [hc, collapseWs_eq_self rest hr]

theorem cleanText_ok : cleanText "ok" "" = "ok" := by
  have h1 : stripTags "ok".toList = "ok".toList := stripTags_eq_self _ (by decide)
  rw [cleanText, if_neg (by decide), h1]
  have h2 : collapseWs "ok".toList = "ok".toList := collapseWs_eq_self _ (by decide)
  rw [h2]
  decide

/-! ## Extractor characterization -/

/-- The extractor emits, for the comment trees, exactly the traversal nodes
whose cleaned text exceeds 10 characters, as documents, in traversal order. -/
theorem processComments_eq_filter (t : ThreadDetails) (ty : DocType) (l : List CommentNode) :
    processComments t ty l =
      ((commentNodes ty l).filter
          fun p => decide (10 < (cleanText p.2.content p.2.document).length)).map
        (mkCommentDoc t) := by
  match l with
  | [] => simp [processComments, commentNodes]
  | .node d cs :: rest =>
    rw [processComments, commentNodes]
    rw [processComments_eq_filter t .comment cs, processComments_eq_filter t ty rest]
    by_cases h : 10 < (cleanText d.content d.document).length <;>
      simp [h, List.filter_append]
termination_by sizeOf l

theorem createThreadVectorDocuments_eq (t : ThreadDetails) :
    createThreadVectorDocuments t =
      (if 10 < (cleanText t.content t.document).length then [threadDoc t] else [])
        ++ ((commentNodes DocType.answer t.answers
              ++ commentNodes DocType.comment t.comments).filter
              fun p => decide (10 < (cleanText p.2.content p.2.document).length)).map
            (mkCommentDoc t) := by
  rw [createThreadVectorDocuments, List.filter_append, List.map_append]
  rw [processComments_eq_filter, processComments_eq_filter]
  simp [List.append_assoc]

/-- Evaluation of the spec scenario: thread body `"ok"`, one 50-character
answer, produces exactly the answer document. -/
theorem scenario_docs :
    createThreadVectorDocuments scenarioThread
      = [mkCommentDoc scenarioThread (DocType.answer, scenarioAnswer)] := by
  have hbody : ¬ 10 < (cleanText "ok" "").length := by rw [cleanText_ok]; decide
  have hans : 10 < (cleanText scenarioAnswer.content scenarioAnswer.document).length := by
    decide
  rw [createThreadVectorDocuments]
  show (if 10 < (cleanText "ok" "").length then [threadDoc scenarioThread] else [])
      ++ processComments scenarioThread DocType.answer [CommentNode.node scenarioAnswer []]
      ++ processComments scenarioThread DocType.comment [] = _
  rw [if_neg hbody, processComments, processComments, if_pos hans]
  simp [processComments]

/-- Claim C8: for every thread, the extractor emits a document for the
thread body, and one for each answer/comment node of its tree, exactly when
the cleaned text length exceeds 10 characters; in particular the scenario
thread with body `"ok"` (2 characters) and one 50-character answer yields
exactly 1 document — the answer document only. -/
theorem extractDocuments_ten_char_floor :
    (∀ t : ThreadDetails,
        createThreadVectorDocuments t =
          (if 10 < (cleanText t.content t.document).length then [threadDoc t] else [])
            ++ ((commentNodes DocType.answer t.answers
                  ++ commentNodes DocType.comment t.comments).filter
                  fun p => decide (10 < (cleanText p.2.content p.2.document).length)).map
                (mkCommentDoc t))
    ∧ createThreadVectorDocuments scenarioThread
        = [mkCommentDoc scenarioThread (DocType.answer, scenarioAnswer)]
    ∧ (createThreadVectorDocuments scenarioThread).length = 1 :=
  ⟨createThreadVectorDocuments_eq, scenario_docs, by rw [scenario_docs]; rfl⟩

/-! ## Vector-id purity and upsert idempotence -/

theorem mem_upsertId {store : List String} {i x : String} :
    x ∈ upsertId store i ↔ x ∈ store ∨ x = i := by
  by_cases h : i ∈ store
  · simp only [upsertId, if_pos h]
    constructor
    · exact fun hx => Or.inl hx
    · rintro (hx | rfl)
      · exact hx
      · exact h
  · simp [upsertId, if_neg h]

theorem upsertId_of_mem {store : List String} {i : String} (h : i ∈ store) :
    upsertId store i = store := by
  simp [upsertId, h]

theorem subset_upsertIds (store : List String) (ids : List String) :
    ∀ x ∈ store, x ∈ upsertIds store ids := by
  induction ids generalizing store with
  | nil => intro x hx; exact hx
  | cons i rest ih =>
    intro x hx
    exact ih (upsertId store i) x (mem_upsertId.mpr (Or.inl hx))

theorem mem_upsertIds_of_mem_ids (store : List String) (ids : List String) :
    ∀ x ∈ ids, x ∈ upsertIds store ids := by
  induction ids generalizing store with
  | nil => intro x hx; cases hx
  | cons i rest ih =>
    intro x hx
    rcases List.mem_cons.mp hx with rfl | hx
    · exact subset_upsertIds (upsertId store x) rest x (mem_upsertId.mpr (Or.inr rfl))
    · exact ih (upsertId store i) x hx

theorem upsertIds_of_subset (store : List String) (ids : List String)
    (h : ∀ x ∈ ids, x ∈ store) : upsertIds store ids = store := by
  induction ids with
  | nil => rfl
  | cons i rest ih =>
    have hi : i ∈ store := h i (List.mem_cons_self i rest)
    show upsertIds (upsertId store i) rest = store
    rw [upsertId_of_mem hi]
    exact ih fun x hx => h x (List.mem_cons_of_mem _ hx)

theorem upsertIds_idem (store : List String) (ids : List String) :
    upsertIds (upsertIds store ids) ids = upsertIds store ids :=
  upsertIds_of_subset _ _ (mem_upsertIds_of_mem_ids store ids)

theorem upsertId_nodup {store : List String} (h : store.Nodup) (i : String) :
    (upsertId store i).Nodup := by
  by_cases hi : i ∈ store
  · rw [upsertId_of_mem hi]; exact h
  · rw [upsertId, if_neg hi]
    rw [List.nodup_append]
    exact ⟨h, List.nodup_singleton i, by
      intro x hx hmem
      rcases List.mem_singleton.mp hmem with rfl
      exact hi hx⟩

theorem upsertIds_nodup (store : List String) (ids : List String) (h : store.Nodup) :
    (upsertIds store ids).Nodup := by
  induction ids generalizing store with
  | nil => exact h
  | cons i rest ih => exact ih (upsertId store i) (upsertId_nodup h i)

/-- Claim C2: the index-document id is a pure function of
`(type, threadId, commentId)` with the exact shapes `thread_{threadId}` and
`{type}_{threadId}_{commentId}`; every document the extractor emits carries
the id derived from its own metadata; and upserting the same id set twice
into the keyed store equals upserting it once (and never creates
duplicates), which is what makes a repeated full sync yield the same index. -/
theorem vectorId_pure_and_idempotent :
    (∀ (tid : Nat) (cid : Option Nat),
        generateVectorId DocType.thread tid cid = "thread_" ++ toString tid)
    ∧ (∀ (tid cid : Nat),
        generateVectorId DocType.answer tid (some cid)
          = "answer_" ++ toString tid ++ "_" ++ toString cid)
    ∧ (∀ (tid cid : Nat),
        generateVectorId DocType.comment tid (some cid)
          = "comment_" ++ toString tid ++ "_" ++ toString cid)
    ∧ (∀ (t : ThreadDetails) (d : VectorDocument), d ∈ createThreadVectorDocuments t →
        d.id = generateVectorId d.metadata.mtype d.metadata.thread_id d.metadata.comment_id)
    ∧ (∀ (store ids : List String), upsertIds (upsertIds store ids) ids = upsertIds store ids)
    ∧ (∀ (store ids : List String), store.Nodup → (upsertIds store ids).Nodup) := by
  refine ⟨fun tid cid => rfl, fun tid cid => rfl, fun tid cid => rfl, ?_,
    upsertIds_idem, upsertIds_nodup⟩
  intro t d hd
  rw [createThreadVectorDocuments_eq] at hd
  rcases List.mem_append.mp hd with hth | hcm
  · have : d = threadDoc t := by
      by_cases h : 10 < (cleanText t.content t.document).length
      · rw [if_pos h] at hth; exact List.mem_singleton.mp hth
      · rw [if_neg h] at hth; cases hth
    subst this
    rfl
  · rcases List.mem_map.mp hcm with ⟨p, _, rfl⟩
    rfl

/-- Witness for C2: the scenario answer document's id is the derived
`answer_1_2`, and upserting a batch over a store stays duplicate-free. -/
theorem vectorId_pure_and_idempotent_witness :
    (mkCommentDoc scenarioThread (DocType.answer, scenarioAnswer)).id
        = generateVectorId DocType.answer 1 (some 2)
    ∧ (upsertIds ["thread_1"] ["answer_1_2", "thread_1"]).Nodup := by
  constructor
  · have h := vectorId_pure_and_idempotent.2.2.2.1 scenarioThread
      (mkCommentDoc scenarioThread (DocType.answer, scenarioAnswer))
      (by rw [scenario_docs]; exact List.mem_singleton.mpr rfl)
    exact h
  · exact vectorId_pure_and_idempotent.2.2.2.2.2 ["thread_1"] ["answer_1_2", "thread_1"]
      (by decide)

/-! ## Pagination termination -/

/-- Against a server that always returns full pages of 100 threads, the
offset-based loop never reaches a break: it runs out of any fuel. -/
theorem offsetGo_none_of_fullPages (server : Nat → ThreadsResponse)
    (h : ∀ o, (server o).threads.length = 100) :
    ∀ (fuel offset : Nat) (acc : List ThreadSummary) (users : List ThreadUser),
      getAllCourseThreadsOffsetGo server fuel offset acc users = none := by
  intro fuel
  induction fuel with
  | zero => intro offset acc users; rfl
  | succ n ih =>
    intro offset acc users
    rw [getAllCourseThreadsOffsetGo]
    rw [if_neg (by rw [h offset]; omega), if_neg (by rw [h offset]; omega)]
    exact ih _ _ _

/-- The cursor-based loop with the 20,000 cap finishes within its fuel as
soon as `total + 100·fuel` clears the cap margin: every continuing
iteration adds at least 100 to a total that stays at most 20,000. -/
theorem cursorGo_isSome (server : Option String → ThreadsResponse) :
    ∀ (fuel total : Nat) (sortKey : Option String)
      (acc : List ThreadSummary) (users : List ThreadUser),
      total ≤ 20000 → 20100 ≤ total + 100 * fuel →
      (getAllCourseThreadsCursorGo server fuel sortKey total acc users).isSome = true := by
  intro fuel
  induction fuel with
  | zero => intro total sortKey acc users h1 h2; omega
  | succ n ih =>
    intro total sortKey acc users h1 h2
    rw [getAllCourseThreadsCursorGo]
    by_cases h0 : (server sortKey).threads.length = 0
    · rw [if_pos h0]; rfl
    · rw [if_neg h0]
      by_cases hlt : (server sortKey).threads.length < 100
      · rw [if_pos hlt]; rfl
      · rw [if_neg hlt]
        by_cases hcap : 20000 < total + (server sortKey).threads.length
        · rw [if_pos hcap]; rfl
        · rw [if_neg hcap]
          exact ih (total + (server sortKey).threads.length) _ _ _ (by omega) (by omega)

/-- Claim C1, corrected: the cursor/sort-key-based `getAllCourseThreads`
variant (the one carrying the 20,000-thread safety cap) terminates for every
sequence of page responses within 202 iterations; the offset-based variant
in `src/lib/ed-client/client.ts` has no safety cap — against a server that
always returns full pages of 100 threads it never terminates, no matter how
many iterations it is allowed. -/
theorem getAllCourseThreads_termination :
    (∀ server : Option String → ThreadsResponse,
        (getAllCourseThreadsCursor server 202).isSome = true)
    ∧ (∀ (server : Nat → ThreadsResponse) (fuel offset : Nat)
        (acc : List ThreadSummary) (users : List ThreadUser),
        (∀ o, (server o).threads.length = 100) →
        getAllCourseThreadsOffsetGo server fuel offset acc users = none) :=
  ⟨fun server => cursorGo_isSome server 202 0 none [] [] (by omega) (by omega),
   fun server fuel offset acc users h => offsetGo_none_of_fullPages server h fuel offset acc users⟩

/-- Witness for C1 at concrete servers. -/
theorem getAllCourseThreads_termination_witness :
    (getAllCourseThreadsCursor fullPageCursorServer 202).isSome = true
    ∧ getAllCourseThreadsOffsetGo fullPageServer 3 0 [] [] = none :=
  ⟨getAllCourseThreads_termination.1 fullPageCursorServer,
   getAllCourseThreads_termination.2 fullPageServer 3 0 [] [] fun _ => rfl⟩

/-- Counterexample to C1 as stated: the offset-based `getAllCourseThreads`
of `src/lib/ed-client/client.ts` applies no 20,000-thread safety cap — after
300 pages of 100 threads (30,000 accumulated threads, already past the
claimed cap) the loop is still running. -/
theorem getAllCourseThreads_counterexample :
    getAllCourseThreadsOffset fullPageServer 300 = none :=
  offsetGo_none_of_fullPages fullPageServer (fun _ => rfl) 300 0 [] []

/-! ## Retry policy -/

theorem withRetryGo_first_success {α : Type} (op : Nat → Except String α)
    (errs : Nat → String) (n : Nat) (v : α) :
    ∀ (j a : Nat), a ≤ j → j ≤ n →
      (∀ k, a ≤ k → k < j → op k = Except.error (errs k)) →
      op j = Except.ok v →
      withRetryGo op n a =
        (Except.ok v, (List.range' a (j - a)).map fun k => retryWaitTime (errs k) k)
  | j, a, haj, hjn, herr, hok => by
    by_cases hae : a = j
    · subst hae
      rw [withRetryGo, hok]
      simp
    · have halt : a < j := lt_of_le_of_ne haj hae
      have hna : ¬ n ≤ a := by omega
      have hea : op a = Except.error (errs a) := herr a le_rfl halt
      rw [withRetryGo, hea]
      show (if n ≤ a then ((Except.error (errs a) : Except String α), ([] : List Nat))
            else ((withRetryGo op n (a + 1)).1,
              retryWaitTime (errs a) a :: (withRetryGo op n (a + 1)).2)) = _
      rw [if_neg hna]
      rw [withRetryGo_first_success op errs n v j (a + 1) (by omega) hjn
        (fun k hk1 hk2 => herr k (by omega) hk2) hok]
      have hrange : j - a = (j - (a + 1)) + 1 := by omega
      rw [hrange, List.range'_succ]
      simp
termination_by j a => j - a

theorem withRetryGo_all_fail {α : Type} (op : Nat → Except String α)
    (errs : Nat → String) (n : Nat) :
    ∀ a : Nat, a ≤ n →
      (∀ k, a ≤ k → k ≤ n → op k = Except.error (errs k)) →
      (withRetryGo op n a).1 = Except.error (errs n)
  | a, han, herr => by
    by_cases hae : a = n
    · subst hae
      rw [withRetryGo, herr a le_rfl le_rfl]
      show (if a ≤ a then ((Except.error (errs a) : Except String α), ([] : List Nat))
            else ((withRetryGo op a (a + 1)).1,
              retryWaitTime (errs a) a :: (withRetryGo op a (a + 1)).2)).1 = _
      rw [if_pos le_rfl]
    · have halt : a < n := lt_of_le_of_ne han hae
      rw [withRetryGo, herr a le_rfl (le_of_lt halt)]
      show (if n ≤ a then ((Except.error (errs a) : Except String α), ([] : List Nat))
            else ((withRetryGo op n (a + 1)).1,
              retryWaitTime (errs a) a :: (withRetryGo op n (a + 1)).2)).1 = _
      rw [if_neg (by omega)]
      exact withRetryGo_all_fail op errs n (a + 1) (by omega)
        (fun k hk1 hk2 => herr k (by omega) hk2)
termination_by a => n - a

/-- Claim C4, corrected: `withRetry` returns the value of the first
successful attempt with the backoff waits accumulated so far, fails with the
last error after `maxRetries` failures, waits `100·2^(k−1)` ms after a
generic failed attempt `k`, waits at least 2000 ms for a rate-limit-classified
error — unless the error is also timeout-classified and it is the first
attempt, where the timeout override wins — and waits 0 ms for a
timeout-classified error on the first attempt. -/
theorem withRetry_policy :
    (∀ (α : Type) (op : Nat → Except String α) (errs : Nat → String) (n j : Nat) (v : α),
        1 ≤ j → j ≤ n →
        (∀ k, 1 ≤ k → k < j → op k = Except.error (errs k)) →
        op j = Except.ok v →
        withRetry op n =
          (Except.ok v, (List.range' 1 (j - 1)).map fun k => retryWaitTime (errs k) k))
    ∧ (∀ (α : Type) (op : Nat → Except String α) (errs : Nat → String) (n : Nat),
        1 ≤ n →
        (∀ k, 1 ≤ k → k ≤ n → op k = Except.error (errs k)) →
        (withRetry op n).1 = Except.error (some (errs n)))
    ∧ (∀ (e : String) (k : Nat), classifyRateLimit e = false → classifyTimeout e = false →
        retryWaitTime e k = 100 * 2 ^ (k - 1))
    ∧ (∀ (e : String) (k : Nat), classifyRateLimit e = true →
        ¬(classifyTimeout e = true ∧ k = 1) → 2000 ≤ retryWaitTime e k)
    ∧ (∀ e : String, classifyTimeout e = true → retryWaitTime e 1 = 0) := by
  refine ⟨?_, ?_, ?_, ?_, ?_⟩
  · intro α op errs n j v hj1 hjn herr hok
    rw [withRetry, if_neg (by omega)]
    rw [withRetryGo_first_success op errs n v j 1 hj1 hjn herr hok]
  · intro α op errs n hn herr
    rw [withRetry, if_neg (by omega)]
    have h := withRetryGo_all_fail op errs n 1 hn herr
    rcases hgo : withRetryGo op n 1 with ⟨r, ws⟩
    rw [hgo] at h
    simp at h
    subst h
    rfl
  · intro e k h1 h2
    simp [retryWaitTime, h1, h2]
  · intro e k h1 h2
    have hcond : (classifyTimeout e && (k == 1)) = false := by
      cases htb : classifyTimeout e with
      | false => simp
      | true =>
        have hk : k ≠ 1 := fun hk1 => h2 ⟨htb, hk1⟩
        simp [hk]
    simp only [retryWaitTime, hcond, Bool.false_eq_true, if_false, h1, if_true]
    exact le_max_right _ _
  · intro e h
    simp [retryWaitTime, h]

/-- Witness for C4: an operation failing on attempts 1 and 2 with a generic
error and succeeding on attempt 3 returns the success value with waits
100 ms then 200 ms. -/
theorem withRetry_policy_witness :
    withRetry failTwiceOp 5 = (Except.ok 42, [100, 200]) := by
  have h := withRetry_policy.1 Nat failTwiceOp (fun _ => "boom") 5 3 42
    (by omega) (by omega)
    (fun k hk1 hk3 => by
      simp only [failTwiceOp, if_pos hk3])
    (by simp [failTwiceOp])
  rw [h]
  have hw : (List.range' 1 (3 - 1)).map
      (fun k => retryWaitTime ((fun _ => "boom") k) k) = [100, 200] := by decide
  rw [hw]

/-- Counterexample to C4 as stated: an error string classified as both
rate-limit (contains `429`) and timeout (contains `timeout`) waits 0 ms on
the first attempt, not at least 2000 ms — the rate-limit floor does not hold
regardless of attempt number. -/
theorem withRetry_counterexample :
    classifyRateLimit "Ed API error (429): upstream timeout" = true
    ∧ classifyTimeout "Ed API error (429): upstream timeout" = true
    ∧ retryWaitTime "Ed API error (429): upstream timeout" 1 = 0 := by
  decide

/-! ## Batch upsert -/

theorem chunksOf100_flatten {α : Type} : ∀ l : List α, (chunksOf100 l).flatten = l
  | [] => by simp [chunksOf100]
  | x :: xs => by
    rw [chunksOf100, List.flatten_cons, chunksOf100_flatten ((x :: xs).drop 100),
      List.take_append_drop]
termination_by l => l.length
decreasing_by
  simp only [List.length_drop, List.length_cons]
  omega

theorem chunksOf100_shape {α : Type} :
    ∀ l : List α,
      (chunksOf100 l).all (fun c => !c.isEmpty && decide (c.length ≤ 100)) = true
  | [] => by simp [chunksOf100]
  | x :: xs => by
    rw [chunksOf100]
    rw [List.all_cons, chunksOf100_shape ((x :: xs).drop 100)]
    simp [List.length_take, List.isEmpty_iff]
termination_by l => l.length
decreasing_by
  simp only [List.length_drop, List.length_cons]
  omega

theorem upsertChunks_spec (chunkFail : Nat → Option String) :
    ∀ (chunks : List (List VectorDocument)) (k : Nat),
      (upsertChunks chunkFail k chunks).1 =
        (((chunks.enumFrom k).filter fun p => (chunkFail p.1).isNone).map
          fun p => p.2.length).sum
      ∧ (upsertChunks chunkFail k chunks).2.length =
          ((chunks.enumFrom k).filter fun p => (chunkFail p.1).isSome).length := by
  intro chunks
  induction chunks with
  | nil => intro k; exact ⟨rfl, rfl⟩
  | cons c rest ih =>
    intro k
    have h1 := (ih (k + 1)).1
    have h2 := (ih (k + 1)).2
    rcases hf : chunkFail k with _ | m <;>
      simp [upsertChunks, hf, List.enumFrom, List.filter_cons, h1, h2]

theorem collectDocs_spec (extract : ThreadDetails → Except String (List VectorDocument)) :
    ∀ threads : List ThreadDetails,
      (collectDocs extract threads).1 =
        (threads.map fun t => (extract t).toOption.getD []).flatten
      ∧ (collectDocs extract threads).2.length =
          threads.countP fun t => (extract t).toOption.isNone := by
  intro threads
  induction threads with
  | nil => exact ⟨rfl, rfl⟩
  | cons t rest ih =>
    rcases he : extract t with m | ds <;>
      simp [collectDocs, he, List.countP_cons, ih.1, ih.2, Except.toOption]

/-- Claim C7: the batch upsert splits the document list into chunks of at
most 100 (nonempty, concatenating back to the list); the upserted count is
the sum of the sizes of exactly the chunks whose write succeeds — chunks
after a failed one are still attempted; the error list has one entry per
failed chunk after one entry per thread whose extraction threw; and one
throwing thread removes only its own documents from the collected list. -/
theorem upsertThreadsBatch_spec :
    (∀ docs : List VectorDocument, (chunksOf100 docs).flatten = docs)
    ∧ (∀ docs : List VectorDocument,
        (chunksOf100 docs).all (fun c => !c.isEmpty && decide (c.length ≤ 100)) = true)
    ∧ (∀ (threads : List ThreadDetails)
        (extract : ThreadDetails → Except String (List VectorDocument))
        (chunkFail : Nat → Option String),
        (upsertThreadsBatch threads extract chunkFail).upserted =
          ((((chunksOf100 (collectDocs extract threads).1).enum).filter
              fun p => (chunkFail p.1).isNone).map fun p => p.2.length).sum)
    ∧ (∀ (threads : List ThreadDetails)
        (extract : ThreadDetails → Except String (List VectorDocument))
        (chunkFail : Nat → Option String),
        (upsertThreadsBatch threads extract chunkFail).errors.length =
          (collectDocs extract threads).2.length +
            (((chunksOf100 (collectDocs extract threads).1).enum).filter
                fun p => (chunkFail p.1).isSome).length)
    ∧ (∀ (threads : List ThreadDetails)
        (extract : ThreadDetails → Except String (List VectorDocument)),
        (collectDocs extract threads).1 =
          (threads.map fun t => (extract t).toOption.getD []).flatten
        ∧ (collectDocs extract threads).2.length =
            threads.countP fun t => (extract t).toOption.isNone) := by
  refine ⟨chunksOf100_flatten, chunksOf100_shape, ?_, ?_, fun t e => collectDocs_spec e t⟩
  · intro threads extract chunkFail
    rw [upsertThreadsBatch]
    by_cases hz : (collectDocs extract threads).1.length = 0
    · rw [if_pos hz]
      have : (collectDocs extract threads).1 = [] := List.length_eq_zero.mp hz
      rw [this]
      simp [chunksOf100]
    · rw [if_neg hz]
      exact (upsertChunks_spec chunkFail (chunksOf100 (collectDocs extract threads).1) 0).1
  · intro threads extract chunkFail
    rw [upsertThreadsBatch]
    by_cases hz : (collectDocs extract threads).1.length = 0
    · rw [if_pos hz]
      have : (collectDocs extract threads).1 = [] := List.length_eq_zero.mp hz
      rw [this]
      simp [chunksOf100]
    · rw [if_neg hz]
      simp only [List.length_append]
      rw [(upsertChunks_spec chunkFail (chunksOf100 (collectDocs extract threads).1) 0).2]
      rfl

/-! ## Delta sync -/

/-- Claim C6: `deltaSyncCourse` delegates exactly the threads whose
`updatedAt` is at least the since-date, and a page fetched through
`getCourseThreadsSince` contains exactly the page threads that pass the
client-side `updated_at` re-check. -/
theorem deltaSync_subset :
    (∀ (threads : List ThreadDetails) (sinceDate : Nat)
        (extract : ThreadDetails → Except String (List VectorDocument))
        (chunkFail : Nat → Option String),
        deltaSyncCourse threads sinceDate extract chunkFail =
          upsertThreadsBatch (deltaRecentThreads threads sinceDate) extract chunkFail)
    ∧ (∀ (threads : List ThreadDetails) (sinceDate : Nat) (t : ThreadDetails),
        t ∈ deltaRecentThreads threads sinceDate ↔
          t ∈ threads ∧ sinceDate ≤ t.updated_at)
    ∧ (∀ (page : ThreadsResponse) (sinceDate : Nat) (th : ThreadSummary),
        th ∈ (getCourseThreadsSince page sinceDate).threads ↔
          th ∈ page.threads ∧ sinceDate ≤ th.updated_at)
    ∧ (∀ (page : ThreadsResponse) (sinceDate : Nat),
        ((getCourseThreadsSince page sinceDate).threads.all
          fun th => decide (sinceDate ≤ th.updated_at)) = true) := by
  refine ⟨fun _ _ _ _ => rfl, ?_, ?_, ?_⟩
  · intro threads sinceDate t
    simp [deltaRecentThreads, List.mem_filter]
  · intro page sinceDate th
    simp [getCourseThreadsSince, List.mem_filter]
  · intro page sinceDate
    rw [List.all_eq_true]
    intro th hth
    rw [getCourseThreadsSince] at hth
    simp only [List.mem_filter, decide_eq_true_eq] at hth
    simp [hth.2]

/-! ## Delta since-date resolution -/

/-- Counterexample to C5 as stated: when a delta sync is requested and the
course has no `lastSuccessfulSyncAt`, `performCourseSync` resolves to a
full sync — not to a delta sync from the claimed 7-day lookback window
(shown here at the concrete clock value 1700000000000). -/
theorem deltaSinceDate_counterexample :
    resolveSyncCall SyncType.delta none none = SyncCall.full
    ∧ resolveSyncCall SyncType.delta none none
        ≠ SyncCall.delta (1700000000000 - 7 * MILLISECONDS_PER_DAY) := by
  exact ⟨rfl, by decide⟩

/-- Claim C5, corrected: a requested delta sync uses
`sinceDate = lastSuccessfulSyncAt` when one exists, and otherwise falls back
to a full sync; the 7-day default lookback exists only inside
`syncCourseVectors` for a delta invocation that supplies no date; and a
since-filtered page fetch returns only threads with
`updated_at ≥ sinceDate`. -/
theorem deltaSinceDateResolution :
    (∀ t : Nat, resolveSyncCall SyncType.delta none (some t) = SyncCall.delta t)
    ∧ (∀ t : Nat, resolveSyncCall SyncType.delta (some false) (some t) = SyncCall.delta t)
    ∧ resolveSyncCall SyncType.delta none none = SyncCall.full
    ∧ resolveSyncCall SyncType.delta (some false) none = SyncCall.full
    ∧ (∀ (d now : Nat), resolveDeltaDate (some d) now = d)
    ∧ (∀ now : Nat, resolveDeltaDate none now = now - 7 * MILLISECONDS_PER_DAY)
    ∧ (∀ (page : ThreadsResponse) (sinceDate : Nat),
        ((getCourseThreadsSince page sinceDate).threads.all
          fun th => decide (sinceDate ≤ th.updated_at)) = true) := by
  refine ⟨fun t => rfl, fun t => rfl, rfl, rfl, fun d now => rfl, fun now => rfl, ?_⟩
  intro page sinceDate
  rw [List.all_eq_true]
  intro th hth
  rw [getCourseThreadsSince] at hth
  simp only [List.mem_filter, decide_eq_true_eq] at hth
  simp [hth.2]

/-! ## Thread deletion -/

/-- Counterexample to C9 as stated: the first prefix delete uses
`thread_{threadId}` with no trailing separator, so deleting thread 12 from a
store holding thread 12's and thread 123's thread documents removes both
(count 2) — thread 123's document is not untouched. -/
theorem deleteThread_counterexample :
    deleteThread ["thread_12", "thread_123"] 12 = ([], 2) := by decide

theorem head_ne_isPrefixOf_false {c1 c2 : Char} {l1 l2 l : List Char} (hne : c1 ≠ c2)
    (h1 : (c1 :: l1).isPrefixOf l = true) : (c2 :: l2).isPrefixOf l = false := by
  cases l with
  | nil => simp [List.isPrefixOf] at h1
  | cons b bs =>
    simp [List.isPrefixOf] at h1 ⊢
    intro hb
    exact absurd (h1.1.trans hb.symm) hne

theorem countP_or_disjoint {α : Type} (p q : α → Bool)
    (hdis : ∀ a, p a = true → q a = false) :
    ∀ l : List α, l.countP (fun a => p a || q a) = l.countP p + l.countP q := by
  intro l
  induction l with
  | nil => rfl
  | cons a rest ih =>
    simp only [List.countP_cons, ih]
    cases hp : p a with
    | true => simp [hp, hdis a hp]; omega
    | false => cases hq : q a <;> simp [hp, hq] <;> omega

theorem countP_congr' {α : Type} (p q : α → Bool) (h : ∀ a, p a = q a) :
    ∀ l : List α, l.countP p = l.countP q := by
  intro l
  induction l with
  | nil => rfl
  | cons a rest ih => simp only [List.countP_cons, ih, h a]

theorem toList_threadP (s : String) :
    ("thread_" ++ s).toList = 't' :: (['h', 'r', 'e', 'a', 'd', '_'] ++ s.toList) := by
  show ("thread_" ++ s).data = _
  rw [String.data_append]
  rfl

theorem toList_answerP (s : String) :
    ("answer_" ++ s ++ "_").toList
      = 'a' :: (['n', 's', 'w', 'e', 'r', '_'] ++ s.toList ++ ['_']) := by
  show ("answer_" ++ s ++ "_").data = _
  rw [String.data_append, String.data_append]
  rfl

theorem toList_commentP (s : String) :
    ("comment_" ++ s ++ "_").toList
      = 'c' :: (['o', 'm', 'm', 'e', 'n', 't', '_'] ++ s.toList ++ ['_']) := by
  show ("comment_" ++ s ++ "_").data = _
  rw [String.data_append, String.data_append]
  rfl

theorem sw_thread_answer (tid : Nat) (id : String)
    (h : idStartsWith id ("thread_" ++ toString tid) = true) :
    idStartsWith id ("answer_" ++ toString tid ++ "_") = false := by
  rw [idStartsWith] at h ⊢
  rw [toList_threadP] at h
  rw [toList_answerP]
  exact head_ne_isPrefixOf_false (by decide) h

theorem sw_thread_comment (tid : Nat) (id : String)
    (h : idStartsWith id ("thread_" ++ toString tid) = true) :
    idStartsWith id ("comment_" ++ toString tid ++ "_") = false := by
  rw [idStartsWith] at h ⊢
  rw [toList_threadP] at h
  rw [toList_commentP]
  exact head_ne_isPrefixOf_false (by decide) h

theorem sw_answer_comment (tid : Nat) (id : String)
    (h : idStartsWith id ("answer_" ++ toString tid ++ "_") = true) :
    idStartsWith id ("comment_" ++ toString tid ++ "_") = false := by
  rw [idStartsWith] at h ⊢
  rw [toList_answerP] at h
  rw [toList_commentP]
  exact head_ne_isPrefixOf_false (by decide) h

theorem deleteThread_eq_filter (store : List String) (tid : Nat) :
    (deleteThread store tid).1 = store.filter fun id =>
      !(idStartsWith id ("thread_" ++ toString tid))
        && !(idStartsWith id ("answer_" ++ toString tid ++ "_"))
        && !(idStartsWith id ("comment_" ++ toString tid ++ "_")) := by
  show ((store.filter fun id => !(idStartsWith id ("thread_" ++ toString tid))).filter
      fun id => !(idStartsWith id ("answer_" ++ toString tid ++ "_"))).filter
      (fun id => !(idStartsWith id ("comment_" ++ toString tid ++ "_"))) = _
  rw [List.filter_filter, List.filter_filter]
  apply List.filter_congr
  intro a _
  cases idStartsWith a ("thread_" ++ toString tid) <;>
    cases idStartsWith a ("answer_" ++ toString tid ++ "_") <;>
    cases idStartsWith a ("comment_" ++ toString tid ++ "_") <;> rfl

theorem deleteThread_count (store : List String) (tid : Nat) :
    (deleteThread store tid).2 = store.countP fun id =>
      idStartsWith id ("thread_" ++ toString tid)
        || (idStartsWith id ("answer_" ++ toString tid ++ "_")
            || idStartsWith id ("comment_" ++ toString tid ++ "_")) := by
  show (store.filter fun id => idStartsWith id ("thread_" ++ toString tid)).length
      + ((store.filter fun id => !(idStartsWith id ("thread_" ++ toString tid))).filter
          fun id => idStartsWith id ("answer_" ++ toString tid ++ "_")).length
      + (((store.filter fun id => !(idStartsWith id ("thread_" ++ toString tid))).filter
          fun id => !(idStartsWith id ("answer_" ++ toString tid ++ "_"))).filter
          fun id => idStartsWith id ("comment_" ++ toString tid ++ "_")).length = _
  rw [List.filter_filter, List.filter_filter, List.filter_filter]
  rw [← List.countP_eq_length_filter, ← List.countP_eq_length_filter,
    ← List.countP_eq_length_filter]
  have e2 : ∀ a, (idStartsWith a ("answer_" ++ toString tid ++ "_")
      && !(idStartsWith a ("thread_" ++ toString tid)))
      = idStartsWith a ("answer_" ++ toString tid ++ "_") := by
    intro a
    cases h2 : idStartsWith a ("answer_" ++ toString tid ++ "_") with
    | false => rfl
    | true =>
      cases h1 : idStartsWith a ("thread_" ++ toString tid) with
      | false => rfl
      | true => rw [sw_thread_answer tid a h1] at h2; cases h2
  have e3 : ∀ a, (idStartsWith a ("comment_" ++ toString tid ++ "_")
      && !(idStartsWith a ("answer_" ++ toString tid ++ "_"))
      && !(idStartsWith a ("thread_" ++ toString tid)))
      = idStartsWith a ("comment_" ++ toString tid ++ "_") := by
    intro a
    cases h3 : idStartsWith a ("comment_" ++ toString tid ++ "_") with
    | false => rfl
    | true =>
      have ha : idStartsWith a ("answer_" ++ toString tid ++ "_") = false := by
        cases h2 : idStartsWith a ("answer_" ++ toString tid ++ "_") with
        | false => rfl
        | true => rw [sw_answer_comment tid a h2] at h3; cases h3
      have ht : idStartsWith a ("thread_" ++ toString tid) = false := by
        cases h1 : idStartsWith a ("thread_" ++ toString tid) with
        | false => rfl
        | true => rw [sw_thread_comment tid a h1] at h3; cases h3
      rw [ha, ht]
      rfl
  rw [countP_congr' _ _ e2, countP_congr' _ _ e3]
  rw [countP_or_disjoint _ _ (fun a ha => ?_) store]
  · rw [countP_or_disjoint _ _ (fun a ha => sw_answer_comment tid a ha) store]
    omega
  · rw [sw_thread_answer tid a ha, sw_thread_comment tid a ha]
    rfl

theorem own_doc_matches (tid : Nat) (ty : DocType) (cid : Option Nat) :
    (idStartsWith (generateVectorId ty tid cid) ("thread_" ++ toString tid)
      || (idStartsWith (generateVectorId ty tid cid) ("answer_" ++ toString tid ++ "_")
          || idStartsWith (generateVectorId ty tid cid)
              ("comment_" ++ toString tid ++ "_"))) = true := by
  cases ty with
  | thread =>
    have h : idStartsWith (generateVectorId .thread tid cid)
        ("thread_" ++ toString tid) = true := by
      rw [idStartsWith, List.isPrefixOf_iff_prefix]
      exact List.prefix_refl _
    rw [h, Bool.true_or]
  | answer =>
    have h : idStartsWith (generateVectorId .answer tid cid)
        ("answer_" ++ toString tid ++ "_") = true := by
      rw [idStartsWith, List.isPrefixOf_iff_prefix]
      show ("answer_" ++ toString tid ++ "_").data <+:
        ("answer" ++ "_" ++ toString tid ++ "_"
          ++ (match cid with | some c => toString c | none => "undefined")).data
      refine ⟨(match cid with | some c => toString c | none => "undefined").data, ?_⟩
      simp only [String.data_append]
      simp [List.append_assoc]
    rw [h]
    simp
  | comment =>
    have h : idStartsWith (generateVectorId .comment tid cid)
        ("comment_" ++ toString tid ++ "_") = true := by
      rw [idStartsWith, List.isPrefixOf_iff_prefix]
      show ("comment_" ++ toString tid ++ "_").data <+:
        ("comment" ++ "_" ++ toString tid ++ "_"
          ++ (match cid with | some c => toString c | none => "undefined")).data
      refine ⟨(match cid with | some c => toString c | none => "undefined").data, ?_⟩
      simp only [String.data_append]
      simp [List.append_assoc]
    rw [h]
    simp

/-- Claim C9, corrected: `deleteThread` removes exactly the ids that start
with one of `thread_{threadId}`, `answer_{threadId}_`, `comment_{threadId}_`
and returns their total count; all of the thread's own documents match one
of the three prefixes and are removed; ids matching none of the prefixes
survive.  (As the counterexample shows, a *thread* document of a different
thread whose decimal id extends `{threadId}` also matches the first prefix
and is removed — the claim's "every other thread is untouched" fails in
exactly that case.) -/
theorem deleteThread_amended :
    (∀ (store : List String) (tid : Nat),
        (deleteThread store tid).1 = store.filter fun id =>
          !(idStartsWith id ("thread_" ++ toString tid))
            && !(idStartsWith id ("answer_" ++ toString tid ++ "_"))
            && !(idStartsWith id ("comment_" ++ toString tid ++ "_")))
    ∧ (∀ (store : List String) (tid : Nat),
        (deleteThread store tid).2 = store.countP fun id =>
          idStartsWith id ("thread_" ++ toString tid)
            || (idStartsWith id ("answer_" ++ toString tid ++ "_")
                || idStartsWith id ("comment_" ++ toString tid ++ "_")))
    ∧ (∀ (store : List String) (tid : Nat) (ty : DocType) (cid : Option Nat),
        generateVectorId ty tid cid ∉ (deleteThread store tid).1)
    ∧ (∀ (store : List String) (tid : Nat) (id : String), id ∈ store →
        idStartsWith id ("thread_" ++ toString tid) = false →
        idStartsWith id ("answer_" ++ toString tid ++ "_") = false →
        idStartsWith id ("comment_" ++ toString tid ++ "_") = false →
        id ∈ (deleteThread store tid).1) := by
  refine ⟨deleteThread_eq_filter, deleteThread_count, ?_, ?_⟩
  · intro store tid ty cid hmem
    rw [deleteThread_eq_filter] at hmem
    have h2 := (List.mem_filter.mp hmem).2
    have h3 := own_doc_matches tid ty cid
    simp only [Bool.or_eq_true] at h3
    simp only [Bool.and_eq_true, Bool.not_eq_true'] at h2
    rcases h3 with h | h | h <;> simp_all
  · intro store tid id hmem hp1 hp2 hp3
    rw [deleteThread_eq_filter]
    exact List.mem_filter.mpr ⟨hmem, by rw [hp1, hp2, hp3]; rfl⟩

/-- Witness for C9: deleting thread 7 from a store with its three documents
plus thread 8's document removes exactly the three and leaves `thread_8`. -/
theorem deleteThread_amended_witness :
    (deleteThread ["thread_7", "answer_7_1", "comment_7_2", "thread_8"] 7).1 = ["thread_8"]
    ∧ (deleteThread ["thread_7", "answer_7_1", "comment_7_2", "thread_8"] 7).2 = 3
    ∧ generateVectorId DocType.thread 7 none ∉ (deleteThread ["thread_7", "thread_8"] 7).1
    ∧ "thread_8" ∈ (deleteThread ["thread_7", "thread_8"] 7).1 := by
  refine ⟨?_, ?_, deleteThread_amended.2.2.1 ["thread_7", "thread_8"] 7 DocType.thread none,
    deleteThread_amended.2.2.2 ["thread_7", "thread_8"] 7 "thread_8" (by decide) (by decide)
      (by decide) (by decide)⟩
  · rw [deleteThread_amended.1]
    decide
  · rw [deleteThread_amended.2.1]
    decide

/-! ## Sync termination of the state machine -/

theorem updateSyncState_status (db : Option SyncStateRec) (a : UpdateArgs) :
    (updateSyncState db a).status = a.status := by
  cases db <;> rfl

theorem updateSyncState_syncedThreads (db : Option SyncStateRec) (a : UpdateArgs) :
    (updateSyncState db a).syncedThreads = a.syncedThreads := by
  cases db <;> rfl

theorem updateSyncState_errorMessage_failed (db : Option SyncStateRec) (a : UpdateArgs)
    (h : a.status = SyncStatus.failed) :
    (updateSyncState db a).errorMessage = a.errorMessage := by
  cases db with
  | none => rfl
  | some r => simp [updateSyncState, h]

theorem updateSyncState_errorMessage_completed (r : SyncStateRec) (a : UpdateArgs)
    (h : a.status = SyncStatus.completed) :
    (updateSyncState (some r) a).errorMessage = none := by
  simp [updateSyncState, h]

/-- Counterexample to C3 as stated: (i) a triggered sync with an empty token
throws before any state write, so a row already in `syncing` (as
`startCourseSync` writes it) stays in `syncing` — neither `completed` nor
`failed`; (ii) a sync that completes with one accumulated error (`"boom"`)
ends `completed` with `errorMessage` cleared to `none` by `updateSyncState`,
not with the joined errors. -/
theorem performCourseSync_counterexample :
    performCourseSync emptyTokenArgs envOkWithErrors (some stuckSyncingRec)
        = (Except.error "ED token is required", some stuckSyncingRec)
    ∧ stuckSyncingRec.status = SyncStatus.syncing
    ∧ ((performCourseSync okTokenArgs envOkWithErrors (some stuckSyncingRec)).2.map
        fun r => (r.status, r.errorMessage)) = some (SyncStatus.completed, none)
    ∧ (envOkWithErrors.runSync SyncCall.full
        = Except.ok { upserted := 5, deleted := 0, errors := ["boom"] }) :=
  ⟨rfl, rfl, rfl, rfl⟩

/-- Claim C3, corrected: once past the initial guards (a nonempty token and
a present vector config — both checked before any state write), every
execution of `performCourseSync` ends with the row written `completed` or
`failed`: on an error it is `failed` carrying that error message, and on
success it is `completed` carrying the upserted count — but with
`errorMessage` cleared by `updateSyncState`, not the joined errors the
caller passes. -/
theorem performCourseSync_final_state (args : SyncArgs) (env : SyncEnv)
    (db : Option SyncStateRec)
    (htok : args.edToken ≠ "") (hcfg : env.vectorConfigOk = true) :
    ∃ row : SyncStateRec, (performCourseSync args env db).2 = some row
      ∧ (row.status = SyncStatus.completed ∨ row.status = SyncStatus.failed)
      ∧ (∀ e, (performCourseSync args env db).1 = Except.error e →
          row.status = SyncStatus.failed ∧ row.errorMessage = some e)
      ∧ (∀ r, (performCourseSync args env db).1 = Except.ok r →
          row.status = SyncStatus.completed ∧ row.syncedThreads = some r.upserted
            ∧ row.errorMessage = none) := by
  have h2 : ¬ env.vectorConfigOk = false := by rw [hcfg]; simp
  simp only [performCourseSync, if_neg htok, if_neg h2]
  by_cases htv : env.tokenValid = false
  · rw [if_pos htv]
    refine ⟨_, rfl, Or.inr (updateSyncState_status _ _), ?_, ?_⟩
    · intro e he
      have he' : ("Invalid ED token: " ++ env.tokenErrorMsg) = e := by
        cases he
        rfl
      refine ⟨updateSyncState_status _ _, ?_⟩
      rw [updateSyncState_errorMessage_failed _ _ rfl]
      rw [he']
    · intro r hr
      cases hr
  · rw [if_neg htv]
    split
    · rename_i syncResult heq
      refine ⟨_, rfl, Or.inl (updateSyncState_status _ _), ?_, ?_⟩
      · intro e he
        cases he
      · intro r hr
        have hrr : syncResult = r := by
          cases hr
          rfl

        subst hrr
        refine ⟨updateSyncState_status _ _, ?_, ?_⟩
        · rw [updateSyncState_syncedThreads]
        · exact updateSyncState_errorMessage_completed _ _ rfl
    · rename_i e heq
      refine ⟨_, rfl, Or.inr (updateSyncState_status _ _), ?_, ?_⟩
      · intro e' he
        have he' : e = e' := by
          cases he
          rfl
        refine ⟨updateSyncState_status _ _, ?_⟩
        rw [updateSyncState_errorMessage_failed _ _ rfl]
        rw [he']
      · intro r hr
        cases hr

/-- Witness for C3 at a concrete run whose sync call throws. -/
theorem performCourseSync_final_state_witness :
    ∃ row : SyncStateRec,
      (performCourseSync okTokenArgs envSyncThrows (some stuckSyncingRec)).2 = some row
      ∧ (row.status = SyncStatus.completed ∨ row.status = SyncStatus.failed)
      ∧ (∀ e, (performCourseSync okTokenArgs envSyncThrows (some stuckSyncingRec)).1
            = Except.error e →
          row.status = SyncStatus.failed ∧ row.errorMessage = some e)
      ∧ (∀ r, (performCourseSync okTokenArgs envSyncThrows (some stuckSyncingRec)).1
            = Except.ok r →
          row.status = SyncStatus.completed ∧ row.syncedThreads = some r.upserted
            ∧ row.errorMessage = none) :=
  performCourseSync_final_state okTokenArgs envSyncThrows (some stuckSyncingRec)
    (by decide) rfl

/-! ## Current-year course filtering -/

theorem parsedCourses_length (y : String) :
    ∀ cs : List RawEnrollment,
      (cs.filterMap fun cd =>
        match cd.course with
        | some c =>
          if c.year = y then
            some ({ course := c, last_active := cd.last_active } : Enrollment)
          else none
        | none => none).length
      = cs.countP fun cd =>
          match cd.course with
          | some c => c.year == y
          | none => false := by
  intro cs
  induction cs with
  | nil => rfl
  | cons cd rest ih =>
    rcases hcc : cd.course with _ | c
    · simp only [List.filterMap_cons, List.countP_cons, hcc]
      simp [ih]
    · by_cases hy : c.year = y <;>
        simp only [List.filterMap_cons, List.countP_cons, hcc] <;>
        simp [hy, ih]

/-- Claim C10: a successful `getUserCourses` keeps exactly the enrollments
that carry a course of the current calendar year (entries lacking a course
object, or from another year, are dropped), so the `syncAllActiveCourses`
fan-out set contains only current-year active courses and the health
check’s `coursesCount` counts exactly the surviving current-year
enrollments. -/
theorem getUserCourses_current_year (data : EdApiResponse) (y : String)
    (parsed : ParsedUserData) (h : getUserCourses data y = Except.ok parsed) :
    (parsed.courses.all fun e => e.course.year == y) = true
    ∧ parsed.courses.length = (data.courses.getD []).countP (fun cd =>
        match cd.course with
        | some c => c.year == y
        | none => false)
    ∧ ((activeCourses parsed).all fun e =>
        e.course.year == y && e.course.status == "active") = true
    ∧ healthCoursesCount parsed = parsed.courses.length := by
  simp only [getUserCourses] at h
  rcases hdu : data.user with _ | u
  · rw [hdu] at h
    exact Except.noConfusion h
  rcases hdc : data.courses with _ | cs
  · rw [hdu, hdc] at h
    exact Except.noConfusion h
  rw [hdu, hdc] at h
  dsimp only at h
  by_cases hguard : u.id = 0 ∨ u.name = "" ∨ u.email = ""
  · rw [if_pos hguard] at h
    exact Except.noConfusion h
  rw [if_neg hguard] at h
  injection h with hX
  subst hX
  have hall : ((cs.filterMap fun cd =>
      match cd.course with
      | some c =>
        if c.year = y then
          some ({ course := c, last_active := cd.last_active } : Enrollment)
        else none
      | none => none).all fun e => e.course.year == y) = true := by
    rw [List.all_eq_true]
    intro e he
    rcases List.mem_filterMap.mp he with ⟨cd, _, hcd⟩
    rcases hcc : cd.course with _ | c
    · rw [hcc] at hcd
      exact Option.noConfusion hcd
    · rw [hcc] at hcd
      dsimp only at hcd
      by_cases hy : c.year = y
      · rw [if_pos hy] at hcd
        cases hcd
        simp [hy]
      · rw [if_neg hy] at hcd
        exact Option.noConfusion hcd
  refine ⟨hall, ?_, ?_, rfl⟩
  · rw [Option.getD_some]
    exact parsedCourses_length y cs
  · rw [List.all_eq_true]
    intro e he
    have hmem := List.mem_filter.mp he
    have hy := List.all_eq_true.mp hall e hmem.1
    simp only [decide_eq_true_eq] at hmem hy ⊢
    rw [hy, hmem.2]
    simp

/-- Witness for C10 on the sample `/user` response: the 2024 course and the
course-less enrollment are dropped, one 2025 active course remains. -/
theorem getUserCourses_current_year_witness :
    (sampleParsed.courses.all fun e => e.course.year == "2025") = true
    ∧ sampleParsed.courses.length = (sampleApiResponse.courses.getD []).countP (fun cd =>
        match cd.course with
        | some c => c.year == "2025"
        | none => false)
    ∧ ((activeCourses sampleParsed).all fun e =>
        e.course.year == "2025" && e.course.status == "active") = true
    ∧ healthCoursesCount sampleParsed = sampleParsed.courses.length :=
  getUserCourses_current_year sampleApiResponse "2025" sampleParsed rfl

end AskEd
